import Mathlib

/-!
# Verification of the `intergo` internationalization library

Shallow embedding of `intergo.go` (package `intergo`): a locale-string
parser built on `fmt.Sscanf(locale, "%2s_%2s")`, a two-level string table
`map[language]map[region]map[key]text`, and the lookup/fallback operations
`Get`, `GetFromLocale`, `AddLocale`, `SetPreferedLocale`,
`AutoSetPreferedLocale`.

Modelling conventions:
* Go maps are embedded as association lists with unique keys; the list
  order stands for the (unspecified) Go iteration order.  A Go map
  *reference* that may be `nil` is embedded as an `Option` of the list
  (`none` = `nil`); indexing a `nil` map yields the zero value `""`.
* The context is a value; methods with pointer receivers become
  state-passing functions returning the updated context.  The read
  operations return the (unchanged) context explicitly so that their
  frame property is a theorem about the embedding, not a typing accident.
* `fmt.Sscanf(locale, "%2s_%2s", &lang, &local)` is embedded by
  specializing the scanning algorithm of Go's `fmt/scan.go` to this fixed
  format.  Before each `%2s`, `doScanf` runs `SkipSpace` — *before* the
  width limit is armed, so leading spaces never count against the width —
  using Go's space table and failing with `unexpected newline` on a
  newline (for `Sscanf`, newline is not space).  `convertString` then
  fails with `EOF` (`io.EOF`, raised by `notEOF`) when the operand starts
  at end of input, and otherwise reads a token of at most 2 non-space
  runes (the armed width).  The literal `_` must match the very next rune:
  `unexpected EOF` (`io.ErrUnexpectedEOF`, from `mustReadRune`) at end of
  input, `input does not match format` on mismatch.  Trailing input after
  the format is ignored.
* Go map values are references.  `SetPreferedLocale` stores in
  `preferedLang` a reference to the `Language` map object at
  `languages[lang]`.  Such an object is created exactly once (when
  `AddLocale` finds the slot nil) and afterwards only mutated in place,
  never replaced, so the reference is embedded as the language key
  (`none` = `nil`) and reads dereference through `languages`: an
  `AddLocale` mutation of the aliased group is visible to `Get`, as in
  Go (see `sanity_alias_after_AddLocale`).  `prefered` references a
  `Locale` map object that the library never mutates (`AddLocale`
  replaces whole table slots instead), so it is embedded as a value copy
  — which also captures that an overwritten table stays visible through
  a stale `prefered`.
* `os.Getenv` is embedded as an explicit environment argument
  `String → String` (Go returns `""` for unset variables).
* The context is assumed initialized (`Init` has been called): the spec
  declares operations on an uninitialized context out of contract, so the
  top-level map is a plain list rather than a nillable map.
-/

set_option synthInstance.maxSize 1024

deriving instance DecidableEq for Except

/-- The space table of Go's `fmt/scan.go` (`var space = [][2]uint16{...}`),
as inclusive code-point ranges. -/
def goSpaceRanges : List (Nat × Nat) :=
  [(0x0009, 0x000d), (0x0020, 0x0020), (0x0085, 0x0085), (0x00a0, 0x00a0),
   (0x1680, 0x1680), (0x2000, 0x200a), (0x2028, 0x2029), (0x202f, 0x202f),
   (0x205f, 0x205f), (0x3000, 0x3000)]

/-- `isSpace` of Go's `fmt/scan.go`: membership in the space table. -/
def goIsSpace (c : Char) : Bool :=
  goSpaceRanges.any (fun p => decide (p.1 ≤ c.toNat) && decide (c.toNat ≤ p.2))

/-- `ss.SkipSpace` of `fmt/scan.go`, specialized to `Sscanf`
(`nlIsSpace = false`): consumes leading space runes; a newline — or a
`\r` immediately followed by `\n` — is an `unexpected newline` error
(a lone `\r` is ordinary space).  `doScanf` calls it before arming the
operand's width limit, so no budget constrains it.  Returns the
remaining input. -/
def goSkipSpace : List Char → Except String (List Char)
  | [] => Except.ok []
  | c :: cs =>
    if c = '\n' then Except.error "unexpected newline"
    else if c = '\r' then
      match cs with
      | '\n' :: _ => Except.error "unexpected newline"
      | _ => goSkipSpace cs
    else if goIsSpace c then goSkipSpace cs
    else Except.ok (c :: cs)

/-- `ss.token(…, notSpace)` of `fmt/scan.go` under a remaining width
budget `w`: reads non-space runes until the budget, the input, or the
non-space run is exhausted.  Returns the token and the remaining input. -/
def takeTokenW : Nat → List Char → List Char × List Char
  | 0, cs => ([], cs)
  | _ + 1, [] => ([], [])
  | w + 1, c :: cs =>
    if goIsSpace c then ([], c :: cs)
    else
      let (t, r) := takeTokenW w cs
      (c :: t, r)

/-- One `%2s` operand: `doScanf` skips spaces (unbudgeted), then arms
the width limit of 2 runes and calls `convertString`, whose `notEOF`
fails with `EOF` (`io.EOF`) when no input remains, and whose token read
takes at most 2 non-space runes. -/
def scan2s (cs : List Char) : Except String (List Char × List Char) :=
  match goSkipSpace cs with
  | Except.error e => Except.error e
  | Except.ok [] => Except.error "EOF"
  | Except.ok (c :: rest) => Except.ok (takeTokenW 2 (c :: rest))

/-- Result of `fmt.Sscanf(locale, "%2s_%2s", &lang, &local)`: the number
of operands scanned, the error (if any), and the two scanned strings. -/
structure ScanResult where
  n : Nat
  err : Option String
  lang : String
  region : String
deriving DecidableEq, Repr

/-- `fmt.Sscanf(input, "%2s_%2s", &lang, &local)`: first `%2s` operand,
then the literal `_` (matched against the very next rune: `unexpected
EOF` at end of input, `input does not match format` on mismatch), then
the second `%2s` operand.  Input remaining after the format is ignored. -/
def sscanfLocale (cs : List Char) : ScanResult :=
  match scan2s cs with
  | Except.error e => ⟨0, some e, "", ""⟩
  | Except.ok (t1, r1) =>
    match r1 with
    | [] => ⟨1, some "unexpected EOF", ⟨t1⟩, ""⟩
    | c :: rest =>
      if c = '_' then
        match scan2s rest with
        | Except.error e => ⟨1, some e, ⟨t1⟩, ""⟩
        | Except.ok (t2, _) => ⟨2, none, ⟨t1⟩, ⟨t2⟩⟩
      else ⟨1, some "input does not match format", ⟨t1⟩, ""⟩

/-- `parseLocaleString` of `intergo.go`: run the scan; propagate its
error; if fewer than 2 operands were scanned (without a scan error),
report `unparsable locale string <input>`; otherwise return the language
and the region. -/
def parseLocaleString (locale : String) : Except String (String × String) :=
  let r := sscanfLocale locale.data
  match r.err with
  | some e => Except.error e
  | none =>
    if r.n ≠ 2 then Except.error ("unparsable locale string " ++ locale)
    else Except.ok (r.lang, r.region)

/-! ## Data model: the two-level string table -/

/-- The contents of a non-`nil` Go `map[string]string` (`Locale` in
`intergo.go`): an association list from key to translated text, keys
unique, list order standing for the iteration order. -/
abbrev Entries := List (String × String)

/-- A Go `Locale` map reference: `none` is the `nil` map. -/
abbrev GoLocale := Option Entries

/-- The contents of a non-`nil` Go `Language` map
(`map[string]Locale` in `intergo.go`): region code → `Locale`
reference.  User-supplied entry maps may be `nil`, so the stored values
are `GoLocale`. -/
abbrev LanguageContents := List (String × GoLocale)

/-- Association-list lookup, embedding a Go map index without its
zero-value default: `none` means the key is absent. -/
def lookupAssoc {β : Type} : List (String × β) → String → Option β
  | [], _ => none
  | (k', v) :: rest, k => if k' = k then some v else lookupAssoc rest k

/-- Association-list insertion, embedding a Go map assignment
`m[k] = v`: replaces the value at `k` in place, or appends a new
binding. -/
def insertAssoc {β : Type} : List (String × β) → String → β → List (String × β)
  | [], k, v => [(k, v)]
  | (k', v') :: rest, k, v =>
    if k' = k then (k, v) :: rest else (k', v') :: insertAssoc rest k v

/-- Go index `m[k]` on a non-`nil` `map[string]string`: the stored value,
or the zero value `""` when absent. -/
def goLookupE (e : Entries) (k : String) : String :=
  match lookupAssoc e k with
  | some v => v
  | none => ""

/-- Go index `m[k]` on a possibly-`nil` `map[string]string` reference
(indexing a `nil` map yields the zero value `""`). -/
def goLookup (m : GoLocale) (k : String) : String :=
  match m with
  | none => ""
  | some e => goLookupE e k

/-- Go index `g[region]` on a non-`nil` `Language` map: the stored
`Locale` reference, or the zero value `nil` when the region is absent. -/
def goTable (g : LanguageContents) (region : String) : GoLocale :=
  match lookupAssoc g region with
  | none => none
  | some m => m

/-- `InterContext` of `intergo.go`: `languages` is the (initialized)
top-level map and `prefered` the possibly-`nil` preferred `Locale`
reference (a value copy: the library never mutates a `Locale` object).
`preferedLang` is the possibly-`nil` preferred `Language` reference,
embedded as the language key of the referenced map object: each
`Language` object lives at exactly one key of `languages` and is only
ever mutated in place there, never replaced, so the key identifies the
object and dereferencing through `languages` sees its current contents
(Go map aliasing).  In every state reachable through the API a set key
is present in `languages`. -/
structure InterContext where
  languages : List (String × LanguageContents)
  prefered : GoLocale
  preferedLang : Option String
deriving DecidableEq, Repr

/-- Dereference the preferred `Language` reference `k`: the current
contents of the map object it aliases, i.e. the group now stored at
`languages[k]` (present in every API-reachable state). -/
def derefLang (ctx : InterContext) (k : String) : LanguageContents :=
  (lookupAssoc ctx.languages k).getD []

/-- `(*InterContext).Init`: allocates the empty top-level map. -/
def InterContext.Init (ctx : InterContext) : InterContext :=
  { ctx with languages := [] }

/-- `(*InterContext).AddLocale`: parse the locale string (propagating the
error without mutation); create a fresh one-region `Language` map when
the language is absent, otherwise assign the entries at the region key
inside the existing `Language` map. -/
def InterContext.AddLocale (ctx : InterContext) (locale : String)
    (entries : GoLocale) : InterContext × Option String :=
  match parseLocaleString locale with
  | Except.error e => (ctx, some e)
  | Except.ok (lang, region) =>
    match lookupAssoc ctx.languages lang with
    | none =>
      ({ ctx with languages := insertAssoc ctx.languages lang [(region, entries)] }, none)
    | some g =>
      ({ ctx with languages := insertAssoc ctx.languages lang (insertAssoc g region entries) }, none)

/-- `(*InterContext).SetPreferedLocale`: parse the locale string
(propagating the error without mutation); assign
`preferedLang := languages[lang]` — the reference, embedded as the key,
`none` when the slot is `nil`; only when it is non-`nil`, additionally
assign `prefered := preferedLang[region]` (`prefered` is left untouched
when the language group is absent). -/
def InterContext.SetPreferedLocale (ctx : InterContext) (locale : String) :
    InterContext × Option String :=
  match parseLocaleString locale with
  | Except.error e => (ctx, some e)
  | Except.ok (lang, region) =>
    match lookupAssoc ctx.languages lang with
    | none => ({ ctx with preferedLang := none }, none)
    | some g => ({ ctx with preferedLang := some lang, prefered := goTable g region }, none)

/-- `(*InterContext).AutoSetPreferedLocale`, with `os.Getenv` embedded as
the explicit environment `getenv` (Go returns `""` for unset variables):
try `SetPreferedLocale` on `LC_ALL`; on success return `nil`, otherwise
return the result of `SetPreferedLocale` on `LANG`, starting from the
state the first call left behind. -/
def InterContext.AutoSetPreferedLocale (getenv : String → String)
    (ctx : InterContext) : InterContext × Option String :=
  let r := InterContext.SetPreferedLocale ctx (getenv "LC_ALL")
  match r.2 with
  | none => (r.1, none)
  | some _ => InterContext.SetPreferedLocale r.1 (getenv "LANG")

/-- The `for _, l := range …` fallback loop shared by `Get` and
`GetFromLocale`: the first non-empty value stored for `text` in the
tables of a `Language` map (in iteration order), if any. -/
def firstNonEmpty (text : String) : List (String × GoLocale) → Option String
  | [] => none
  | (_, l) :: rest =>
    let t := goLookup l text
    if t ≠ "" then some t else firstNonEmpty text rest

/-- `(*InterContext).Get`: if no preferred language group is set, return
`text`; else if the preferred table is non-`nil` and stores a non-empty
value for `text`, return it; else return the first non-empty value found
while ranging over the tables of the referenced group (dereferenced
through `languages`, so in-place mutations by `AddLocale` are seen), and
`text` when there is none.  The unchanged context is returned to make
the frame explicit. -/
def InterContext.Get (ctx : InterContext) (text : String) : String × InterContext :=
  match ctx.preferedLang with
  | none => (text, ctx)
  | some k =>
    let localTxt := goLookup ctx.prefered text
    if localTxt ≠ "" then (localTxt, ctx)
    else
      match firstNonEmpty text (derefLang ctx k) with
      | some t => (t, ctx)
      | none => (text, ctx)

/-- `(*InterContext).GetFromLocale`: parse the locale string (returning
`(text, err)` on failure); return `(text, nil)` when the language group
is absent; when the group exists but `langMap[region]` is `nil`, range
over the group's tables for the first non-empty value (else
`(text, nil)`); when `langMap[region]` is non-`nil`, return its value
for `text` unless that is `""`, in which case return `(text, nil)`.
The unchanged context is returned to make the frame explicit. -/
def InterContext.GetFromLocale (ctx : InterContext) (text locale : String) :
    (String × Option String) × InterContext :=
  match parseLocaleString locale with
  | Except.error e => ((text, some e), ctx)
  | Except.ok (lang, region) =>
    match lookupAssoc ctx.languages lang with
    | none => ((text, none), ctx)
    | some langMap =>
      match goTable langMap region with
      | none =>
        match firstNonEmpty text langMap with
        | some t => ((t, none), ctx)
        | none => ((text, none), ctx)
      | some localMap =>
        let localTxt := goLookupE localMap text
        if localTxt = "" then ((text, none), ctx) else ((localTxt, none), ctx)

/-! ## Helper lemmas -/

theorem lookupAssoc_insertAssoc_self {β : Type} (l : List (String × β)) (k : String) (v : β) :
    lookupAssoc (insertAssoc l k v) k = some v := by
  induction l with
  | nil => simp [insertAssoc, lookupAssoc]
  | cons hd tl ih =>
    obtain ⟨k', v'⟩ := hd
    by_cases h : k' = k
    · simp [insertAssoc, lookupAssoc, h]
    · simp [insertAssoc, lookupAssoc, h, ih]

theorem lookupAssoc_insertAssoc_ne {β : Type} (l : List (String × β)) (k k2 : String) (v : β)
    (h : k2 ≠ k) : lookupAssoc (insertAssoc l k v) k2 = lookupAssoc l k2 := by
  induction l with
  | nil => simp [insertAssoc, lookupAssoc, Ne.symm h]
  | cons hd tl ih =>
    obtain ⟨k', v'⟩ := hd
    by_cases hk : k' = k
    · simp [insertAssoc, lookupAssoc, hk, Ne.symm h]
    · simp [insertAssoc, lookupAssoc, hk, ih]

/-- The scanned-for loop equals the first table whose value for `key` is
non-empty, as found by `List.find?`. -/
theorem firstNonEmpty_eq_find (key : String) (g : List (String × GoLocale)) :
    firstNonEmpty key g =
      Option.map (fun p => goLookup p.2 key)
        (g.find? (fun p => goLookup p.2 key != "")) := by
  induction g with
  | nil => rfl
  | cons hd tl ih =>
    obtain ⟨r, l⟩ := hd
    by_cases h : goLookup l key = ""
    · simp [firstNonEmpty, List.find?_cons, h, ih]
    · simp [firstNonEmpty, List.find?_cons, h]

/-- The only error `SkipSpace` can raise is the newline error. -/
theorem goSkipSpace_err (cs : List Char) (e : String) :
    goSkipSpace cs = Except.error e → e = "unexpected newline" := by
  induction cs with
  | nil => intro h; simp [goSkipSpace] at h
  | cons c cs ih =>
    intro h
    unfold goSkipSpace at h
    split at h
    · injection h with h; exact h.symm
    · split at h
      · split at h
        · injection h with h; exact h.symm
        · exact ih h
      · split at h
        · exact ih h
        · exact absurd h (by simp)

/-- `SkipSpace` only drops characters: what remains was in the input. -/
theorem goSkipSpace_mem (cs cs' : List Char) :
    goSkipSpace cs = Except.ok cs' → ∀ c, c ∈ cs' → c ∈ cs := by
  induction cs with
  | nil =>
    intro h c hc
    unfold goSkipSpace at h
    injection h with h
    subst h
    exact absurd hc (by simp)
  | cons a cs ih =>
    intro h c hc
    unfold goSkipSpace at h
    split at h
    · exact absurd h (by simp)
    · split at h
      · split at h
        · exact absurd h (by simp)
        · exact List.mem_cons_of_mem a (ih h c hc)
      · split at h
        · exact List.mem_cons_of_mem a (ih h c hc)
        · injection h with h
          subst h
          exact hc

/-- The token reader only drops characters: the unread rest was in the
input. -/
theorem takeTokenW_mem (w : Nat) (cs : List Char) :
    ∀ c, c ∈ (takeTokenW w cs).2 → c ∈ cs := by
  induction cs generalizing w with
  | nil => intro c hc; cases w <;> simp [takeTokenW] at hc
  | cons a cs ih =>
    intro c hc
    cases w with
    | zero => simpa [takeTokenW] using hc
    | succ w =>
      unfold takeTokenW at hc
      split at hc
      · simpa using hc
      · exact List.mem_cons_of_mem a (ih w c hc)

/-- A `%2s` operand fails only with `EOF` (operand at end of input) or
the newline error. -/
theorem scan2s_err (cs : List Char) (e : String) :
    scan2s cs = Except.error e →
    e = "EOF" ∨ e = "unexpected newline" := by
  intro h
  unfold scan2s at h
  split at h
  · injection h with h
    exact Or.inr (h ▸ goSkipSpace_err cs _ (by assumption))
  · injection h with h; exact Or.inl h.symm
  · exact absurd h (by simp)

/-- A successful `%2s` operand only drops characters: the rest was in
the input. -/
theorem scan2s_mem (cs t r : List Char) :
    scan2s cs = Except.ok (t, r) → ∀ c, c ∈ r → c ∈ cs := by
  intro h c hc
  unfold scan2s at h
  split at h
  · exact absurd h (by simp)
  · exact absurd h (by simp)
  · injection h with h
    have hr : (takeTokenW _ _).2 = r := congrArg Prod.snd h
    refine goSkipSpace_mem cs _ (by assumption) c ?_
    exact takeTokenW_mem _ _ c (hr.symm ▸ hc)

/-- Bridge unfolding `parseLocaleString` past its `let`. -/
theorem parseLocaleString_eq (s : String) :
    parseLocaleString s =
      match (sscanfLocale s.data).err with
      | some e => Except.error e
      | none =>
        if (sscanfLocale s.data).n ≠ 2 then
          Except.error ("unparsable locale string " ++ s)
        else Except.ok ((sscanfLocale s.data).lang, (sscanfLocale s.data).region) := rfl

/-- Every scan outcome: success with both operands scanned, or an error
that is one of the four scanner messages (`EOF` from an operand at end
of input, `unexpected EOF` from the `_` literal at end of input,
`input does not match format` from a literal mismatch,
`unexpected newline` from a newline during space skipping). -/
theorem sscanfLocale_cases (cs : List Char) :
    ((sscanfLocale cs).err = none ∧ (sscanfLocale cs).n = 2) ∨
    (∃ e, (sscanfLocale cs).err = some e ∧
      (e = "EOF" ∨ e = "unexpected EOF" ∨ e = "input does not match format" ∨
       e = "unexpected newline")) := by
  unfold sscanfLocale
  split
  · rename_i e heq
    refine Or.inr ⟨e, rfl, ?_⟩
    rcases scan2s_err _ _ heq with h | h
    · exact Or.inl h
    · exact Or.inr (Or.inr (Or.inr h))
  · split
    · exact Or.inr ⟨_, rfl, Or.inr (Or.inl rfl)⟩
    · split
      · split
        · rename_i e heq
          refine Or.inr ⟨e, rfl, ?_⟩
          rcases scan2s_err _ _ heq with h | h
          · exact Or.inl h
          · exact Or.inr (Or.inr (Or.inr h))
        · exact Or.inl ⟨rfl, rfl⟩
      · exact Or.inr ⟨_, rfl, Or.inr (Or.inr (Or.inl rfl))⟩

/-- A scan error is the parse error. -/
theorem parseLocaleString_err_of_scan (s e : String)
    (h : (sscanfLocale s.data).err = some e) :
    parseLocaleString s = Except.error e := by
  rw [parseLocaleString_eq, h]

/-- An input without an underscore cannot pass the literal `_` of the
format, so the scan errors out. -/
theorem sscanf_no_underscore (cs : List Char) (h : '_' ∉ cs) :
    ∃ e, (sscanfLocale cs).err = some e := by
  unfold sscanfLocale
  split
  · exact ⟨_, rfl⟩
  · rename_i t1 r1 heq
    split
    · exact ⟨_, rfl⟩
    · rename_i c rest
      have hc : c ∈ cs := scan2s_mem cs _ _ heq c (by simp)
      have hne : ¬(c = '_') := fun hh => h (hh ▸ hc)
      rw [if_neg hne]
      exact ⟨_, rfl⟩

/-- On a parse error `SetPreferedLocale` returns the error and the
unchanged context. -/
theorem SetPreferedLocale_of_err (ctx : InterContext) (s e : String)
    (h : parseLocaleString s = Except.error e) :
    InterContext.SetPreferedLocale ctx s = (ctx, some e) := by
  simp [InterContext.SetPreferedLocale, h]

/-- On a parse error `AddLocale` returns the error and the unchanged
context. -/
theorem AddLocale_of_err (ctx : InterContext) (s e : String) (entries : GoLocale)
    (h : parseLocaleString s = Except.error e) :
    InterContext.AddLocale ctx s entries = (ctx, some e) := by
  simp [InterContext.AddLocale, h]

/-- A non-space character differs from any space character. -/
theorem ne_of_nospace (x y : Char) (hx : goIsSpace x = false)
    (hy : goIsSpace y = true) : ¬(x = y) := by
  intro h
  rw [h, hy] at hx
  cases hx

/-- `SkipSpace` is the identity on input starting with a non-space. -/
theorem goSkipSpace_nospace (x : Char) (rest : List Char)
    (hx : goIsSpace x = false) :
    goSkipSpace (x :: rest) = Except.ok (x :: rest) := by
  unfold goSkipSpace
  rw [if_neg (ne_of_nospace x '\n' hx (by decide)),
      if_neg (ne_of_nospace x '\r' hx (by decide)),
      if_neg (by simp [hx])]

/-- The token reader takes exactly two leading non-space characters. -/
theorem takeTokenW_two (a b : Char) (r : List Char)
    (ha : goIsSpace a = false) (hb : goIsSpace b = false) :
    takeTokenW 2 (a :: b :: r) = ([a, b], r) := by
  simp [takeTokenW, ha, hb]

/-- A `%2s` operand on two leading non-space characters yields exactly
those two characters. -/
theorem scan2s_two (a b : Char) (r : List Char)
    (ha : goIsSpace a = false) (hb : goIsSpace b = false) :
    scan2s (a :: b :: r) = Except.ok ([a, b], r) := by
  unfold scan2s
  rw [goSkipSpace_nospace a (b :: r) ha]
  simp [takeTokenW_two a b r ha hb]

/-- The scan on `ab_cd…` with non-space `a b c d` succeeds with
`("ab", "cd")`, whatever follows. -/
theorem sscanf_two_core (a b c d : Char) (tail : List Char)
    (ha : goIsSpace a = false) (hb : goIsSpace b = false)
    (hc : goIsSpace c = false) (hd : goIsSpace d = false) :
    sscanfLocale (a :: b :: '_' :: c :: d :: tail) =
      ⟨2, none, ⟨[a, b]⟩, ⟨[c, d]⟩⟩ := by
  unfold sscanfLocale
  rw [scan2s_two a b _ ha hb]
  simp [scan2s_two c d tail hc hd]

theorem string_data_append (s t : String) : (s ++ t).data = s.data ++ t.data := rfl

/-- Needle-in-haystack test used to state that an error message does not
quote the input: does `needle` occur contiguously in `hay`? -/
def startsWithChars : List Char → List Char → Bool
  | _, [] => true
  | [], _ :: _ => false
  | c :: cs, d :: ds => c = d && startsWithChars cs ds

def occursIn (needle : List Char) : List Char → Bool
  | [] => needle.isEmpty
  | c :: rest => startsWithChars (c :: rest) needle || occursIn needle rest

/-! ## Sanity checks mirroring `intergo_test.go` and the source comment -/

/-- The example in the source comment: parsing `pt_BR.UTF-8` yields
`("pt", "BR")` with no error. -/
theorem sanity_parse_doc_example :
    parseLocaleString "pt_BR.UTF-8" = Except.ok ("pt", "BR") := by decide

/-- `TestGetLocale`: exact hit, cross-language miss, and within-language
region fallback. -/
theorem sanity_TestGetLocale :
    ((((⟨[], none, none⟩ : InterContext).Init).AddLocale "pt_BR.UTF-8"
        (some [("hello", "ola")])).1.GetFromLocale "hello" "pt_BR.UTF-8").1 = ("ola", none) ∧
    ((((⟨[], none, none⟩ : InterContext).Init).AddLocale "pt_BR.UTF-8"
        (some [("hello", "ola")])).1.GetFromLocale "hello" "en_US.UTF-8").1 = ("hello", none) ∧
    ((((⟨[], none, none⟩ : InterContext).Init).AddLocale "pt_BR.UTF-8"
        (some [("hello", "ola")])).1.GetFromLocale "hello" "pt_PT.UTF-8").1 = ("ola", none) := by
  decide

/-- `TestSetLocale`: `Get` via the preferred locale, with the `pt_PT`
case falling back to the `BR` table of the same group. -/
theorem sanity_TestSetLocale :
    ((((((⟨[], none, none⟩ : InterContext).Init).AddLocale "pt_BR.UTF-8"
        (some [("hello", "ola")])).1.SetPreferedLocale "pt_BR").1).Get "hello").1 = "ola" ∧
    ((((((⟨[], none, none⟩ : InterContext).Init).AddLocale "pt_BR.UTF-8"
        (some [("hello", "ola")])).1.SetPreferedLocale "pt_PT").1).Get "hello").1 = "ola" := by
  decide

/-- Aliasing of the preferred group, as in Go: after
`SetPreferedLocale "pt_BR"`, `AddLocale "pt_PT"` mutates (in place) the
`Language` map the preferred reference points at, so the new `PT` table
is visible to `Get`'s fallback loop through the preferred reference. -/
theorem sanity_alias_after_AddLocale :
    (((((((⟨[], none, none⟩ : InterContext).Init).AddLocale "pt_BR"
        (some [("hello", "ola")])).1.SetPreferedLocale "pt_BR").1).AddLocale "pt_PT"
        (some [("bye", "tchau")])).1.Get "bye").1 = "tchau" := by decide

/-! ## Claims -/

/-- Claim C1: `Get(key)` satisfies the four-case postcondition — with no
preferred Language Group it returns `key`; else, when the preferred
Translation Table is set and maps `key` to non-empty text, that text;
else the first non-empty value for `key` among the tables of the
preferred Language Group (the group the reference aliases, i.e. the one
currently at its language key; iterated in iteration order, here the
list order); else `key`; a stored empty string counts as absent
throughout. -/
theorem claim_C1_Get_postcondition (ctx : InterContext) (key : String) :
    (ctx.Get key).1 =
      (match ctx.preferedLang with
      | none => key
      | some k =>
        if goLookup ctx.prefered key ≠ "" then goLookup ctx.prefered key
        else
          match (derefLang ctx k).find? (fun p => goLookup p.2 key != "") with
          | some p => goLookup p.2 key
          | none => key) := by
  cases hp : ctx.preferedLang with
  | none => simp [InterContext.Get, hp]
  | some k =>
    simp only [InterContext.Get, hp]
    by_cases h : goLookup ctx.prefered key = ""
    · simp only [h, ne_eq, not_true_eq_false, if_false]
      rw [firstNonEmpty_eq_find]
      cases ((derefLang ctx k).find? fun p => goLookup p.2 key != "") <;> simp
    · simp [h]

/-- Claim C2: when the locale string parses, `GetFromLocale(key, locale)`
returns, with no error: `key` when the language group is absent; the
first non-empty match among the group's tables (else `key`) when the
exact region's table is absent; and, when the exact region's table
exists, its value for `key` unless absent or empty (then `key`),
without consulting sibling regions. -/
theorem claim_C2_GetFromLocale_postcondition (ctx : InterContext)
    (key locale lang region : String)
    (h : parseLocaleString locale = Except.ok (lang, region)) :
    (ctx.GetFromLocale key locale).1 =
      (match lookupAssoc ctx.languages lang with
      | none => (key, none)
      | some g =>
        match goTable g region with
        | none =>
          ((match g.find? (fun p => goLookup p.2 key != "") with
            | some p => goLookup p.2 key
            | none => key), none)
        | some t =>
          ((match lookupAssoc t key with
            | some v => if v = "" then key else v
            | none => key), none)) := by
  simp only [InterContext.GetFromLocale, h]
  cases hl : lookupAssoc ctx.languages lang with
  | none => rfl
  | some g =>
    cases ht : goTable g region with
    | none =>
      simp only [ht, firstNonEmpty_eq_find]
      cases (g.find? fun p => goLookup p.2 key != "") <;> simp
    | some t =>
      simp only [ht, goLookupE]
      cases hk : lookupAssoc t key with
      | none => simp [hk]
      | some v =>
        by_cases hv : v = "" <;> simp [hk, hv]

/-- Witness for claim C2 at a concrete input: the exact `pt_BR` hit. -/
theorem claim_C2_witness :
    ((⟨[("pt", [("BR", some [("hello", "ola")])])], none, none⟩ : InterContext).GetFromLocale
      "hello" "pt_BR").1 = ("ola", none) :=
  (claim_C2_GetFromLocale_postcondition
    ⟨[("pt", [("BR", some [("hello", "ola")])])], none, none⟩
    "hello" "pt_BR" "pt" "BR" (by decide)).trans (by decide)

/-- Counterexample to claim C3: `"ab_c"` is shorter than 5 characters
(and its second segment is not 2 characters long), yet the parser
succeeds with `("ab", "c")` instead of returning a ParseError — `%2s`
widths are maxima, not exact lengths. -/
theorem claim_C3_counterexample :
    ("ab_c" : String).length < 5 ∧
    parseLocaleString "ab_c" = Except.ok ("ab", "c") := by decide

/-- Claim C3 (amended): every input without an underscore yields a
ParseError, and `AddLocale`, `SetPreferedLocale` and `GetFromLocale`
return that error on such inputs; inputs shorter than 5 characters, or
whose tokens are not exactly 2 characters, can nevertheless parse. -/
theorem claim_C3_no_underscore_fails (s : String) (h : '_' ∉ s.data) :
    ∃ e, parseLocaleString s = Except.error e ∧
      (∀ ctx entries, InterContext.AddLocale ctx s entries = (ctx, some e)) ∧
      (∀ ctx, InterContext.SetPreferedLocale ctx s = (ctx, some e)) ∧
      (∀ ctx key, InterContext.GetFromLocale ctx key s = ((key, some e), ctx)) := by
  obtain ⟨e, he⟩ := sscanf_no_underscore s.data h
  have hp := parseLocaleString_err_of_scan s e he
  exact ⟨e, hp, fun ctx entries => AddLocale_of_err ctx s e entries hp,
         fun ctx => SetPreferedLocale_of_err ctx s e hp,
         fun ctx key => by simp [InterContext.GetFromLocale, hp]⟩

/-- Witness for claim C3 (amended) at the concrete input `"abcd"`. -/
theorem claim_C3_witness :
    ∃ e, parseLocaleString "abcd" = Except.error e ∧
      (∀ ctx entries, InterContext.AddLocale ctx "abcd" entries = (ctx, some e)) ∧
      (∀ ctx, InterContext.SetPreferedLocale ctx "abcd" = (ctx, some e)) ∧
      (∀ ctx key, InterContext.GetFromLocale ctx key "abcd" = ((key, some e), ctx)) :=
  claim_C3_no_underscore_fails "abcd" (by decide)

/-- Counterexample to claim C4: with `L = "a "` and `R = "bc"` (both of
length 2, but `L` containing a space), parsing `L_R` fails instead of
yielding `(L, R)` — the first `%2s` token stops at the space and the
literal `_` of the format then mismatches. -/
theorem claim_C4_counterexample :
    ("a " : String).length = 2 ∧ ("bc" : String).length = 2 ∧
    parseLocaleString ("a " ++ "_" ++ "bc") = Except.error "input does not match format" ∧
    parseLocaleString ("a " ++ "_" ++ "bc") ≠ Except.ok ("a ", "bc") := by decide

/-- Claim C4 (amended): for every 2-character `L` and `R` containing no
character from the scanner's space table, parsing `L_R` succeeds with
exactly `(L, R)`, and `L_R.UTF-8` parses to the same pair with the
suffix ignored; (whitespace inside `L` or `R` breaks the round-trip, so
the original "any characters" is restricted to non-space characters). -/
theorem claim_C4_round_trip (L R : String) (hL : L.length = 2) (hR : R.length = 2)
    (hLs : ∀ c ∈ L.data, goIsSpace c = false)
    (hRs : ∀ c ∈ R.data, goIsSpace c = false) :
    parseLocaleString (L ++ "_" ++ R) = Except.ok (L, R) ∧
    parseLocaleString (L ++ "_" ++ R ++ ".UTF-8") = Except.ok (L, R) := by
  obtain ⟨a, b, hab⟩ := List.length_eq_two.mp (show L.data.length = 2 from hL)
  obtain ⟨c, d, hcd⟩ := List.length_eq_two.mp (show R.data.length = 2 from hR)
  have ha : goIsSpace a = false := hLs a (by simp [hab])
  have hb : goIsSpace b = false := hLs b (by simp [hab])
  have hc : goIsSpace c = false := hRs c (by simp [hcd])
  have hd : goIsSpace d = false := hRs d (by simp [hcd])
  have hLd : L = ⟨[a, b]⟩ := by cases L; simp_all
  have hRd : R = ⟨[c, d]⟩ := by cases R; simp_all
  constructor
  · rw [parseLocaleString_eq]
    have hdata : (L ++ "_" ++ R).data = [a, b, '_', c, d] := by
      rw [string_data_append, string_data_append, hab, hcd]; rfl
    rw [hdata, sscanf_two_core a b c d [] ha hb hc hd]
    simp [hLd, hRd]
  · rw [parseLocaleString_eq]
    have hdata : (L ++ "_" ++ R ++ ".UTF-8").data =
        a :: b :: '_' :: c :: d :: ".UTF-8".data := by
      rw [string_data_append, string_data_append, string_data_append, hab, hcd]; rfl
    rw [hdata, sscanf_two_core a b c d ".UTF-8".data ha hb hc hd]
    simp [hLd, hRd]

/-- Witness for claim C4 (amended) at `L = "pt"`, `R = "BR"`. -/
theorem claim_C4_witness :
    parseLocaleString ("pt" ++ "_" ++ "BR") = Except.ok ("pt", "BR") ∧
    parseLocaleString ("pt" ++ "_" ++ "BR" ++ ".UTF-8") = Except.ok ("pt", "BR") :=
  claim_C4_round_trip "pt" "BR" (by decide) (by decide) (by decide) (by decide)

/-- Context used to exhibit the stale preferred-table behavior: the
state after `Init`, `AddLocale "pt_BR" {hello ↦ ola}` and
`SetPreferedLocale "pt_BR"` (so both preferred references are set). -/
def ctxC5 : InterContext :=
  ((((⟨[], none, none⟩ : InterContext).Init).AddLocale "pt_BR"
    (some [("hello", "ola")])).1.SetPreferedLocale "pt_BR").1

/-- Counterexample to claim C5: after the successful
`SetPreferedLocale "en_US"` on `ctxC5` (no `en` group exists), the
preferred Language Group is cleared but the preferred Translation Table
is NOT cleared — it keeps its earlier value instead of being reset. -/
theorem claim_C5_counterexample :
    (ctxC5.SetPreferedLocale "en_US").2 = none ∧
    (ctxC5.SetPreferedLocale "en_US").1.preferedLang = none ∧
    (ctxC5.SetPreferedLocale "en_US").1.prefered = some [("hello", "ola")] ∧
    ¬((ctxC5.SetPreferedLocale "en_US").1.prefered = none) := by decide

/-- Claim C5 (amended): a successful `SetPreferedLocale` whose language
has no group clears the preferred Language Group, leaves every other
field — including the previously preferred Translation Table — exactly
unchanged, and afterwards `Get` returns every key unchanged, so the
stale table is unobservable through `Get`. -/
theorem claim_C5_missing_group_resets (ctx : InterContext) (locale lang region : String)
    (h : parseLocaleString locale = Except.ok (lang, region))
    (hg : lookupAssoc ctx.languages lang = none) :
    InterContext.SetPreferedLocale ctx locale = ({ ctx with preferedLang := none }, none) ∧
    ∀ key, (((InterContext.SetPreferedLocale ctx locale).1).Get key).1 = key := by
  have h1 : InterContext.SetPreferedLocale ctx locale =
      ({ ctx with preferedLang := none }, none) := by
    simp [InterContext.SetPreferedLocale, h, hg]
  refine ⟨h1, fun key => ?_⟩
  rw [h1]
  simp [InterContext.Get]

/-- Witness for claim C5 (amended) on the concrete context `ctxC5` and
locale `en_US`. -/
theorem claim_C5_witness :
    InterContext.SetPreferedLocale ctxC5 "en_US" = ({ ctxC5 with preferedLang := none }, none) ∧
    (((InterContext.SetPreferedLocale ctxC5 "en_US").1).Get "hello").1 = "hello" :=
  ⟨(claim_C5_missing_group_resets ctxC5 "en_US" "en" "US" (by decide) (by decide)).1,
   (claim_C5_missing_group_resets ctxC5 "en_US" "en" "US" (by decide) (by decide)).2 "hello"⟩

/-- Claim C6: on a parse failure, `AddLocale` and `SetPreferedLocale`
return the ParseError and leave the whole context (all three fields)
exactly unchanged. -/
theorem claim_C6_parse_failure_atomic (ctx : InterContext) (s e : String) (entries : GoLocale)
    (h : parseLocaleString s = Except.error e) :
    InterContext.AddLocale ctx s entries = (ctx, some e) ∧
    InterContext.SetPreferedLocale ctx s = (ctx, some e) :=
  ⟨AddLocale_of_err ctx s e entries h, SetPreferedLocale_of_err ctx s e h⟩

/-- Witness for claim C6 at the unparsable input `"zz"`. -/
theorem claim_C6_witness :
    InterContext.AddLocale ⟨[], none, none⟩ "zz" (some [("a", "b")]) =
      (⟨[], none, none⟩, some "unexpected EOF") ∧
    InterContext.SetPreferedLocale ⟨[], none, none⟩ "zz" =
      (⟨[], none, none⟩, some "unexpected EOF") :=
  claim_C6_parse_failure_atomic ⟨[], none, none⟩ "zz" "unexpected EOF"
    (some [("a", "b")]) (by decide)

/-- Claim C7: a successful `AddLocale` stores exactly the given entries
as the whole table at `(lang, region)` (last write wins, no per-key
merge, so keys only in an earlier table are gone); with no existing
group it creates a singleton group; all other languages and all other
regions of the group keep their bindings.  `AddLocale` assigns neither
preferred field: `prefered` (whose `Locale` object is never mutated) and
the `preferedLang` reference are unchanged — though the *contents* of
the group that reference aliases may change through `languages`, as Go's
map aliasing dictates (see `sanity_alias_after_AddLocale`). -/
theorem claim_C7_AddLocale_overwrite (ctx : InterContext)
    (locale lang region : String) (entries : GoLocale)
    (h : parseLocaleString locale = Except.ok (lang, region)) :
    (ctx.AddLocale locale entries).2 = none ∧
    lookupAssoc ((lookupAssoc (ctx.AddLocale locale entries).1.languages lang).getD []) region
      = some entries ∧
    (lookupAssoc ctx.languages lang = none →
      lookupAssoc (ctx.AddLocale locale entries).1.languages lang = some [(region, entries)]) ∧
    (∀ lang2, lang2 ≠ lang →
      lookupAssoc (ctx.AddLocale locale entries).1.languages lang2 =
        lookupAssoc ctx.languages lang2) ∧
    (∀ g g2 reg2, reg2 ≠ region →
      lookupAssoc ctx.languages lang = some g →
      lookupAssoc (ctx.AddLocale locale entries).1.languages lang = some g2 →
      lookupAssoc g2 reg2 = lookupAssoc g reg2) ∧
    (ctx.AddLocale locale entries).1.prefered = ctx.prefered ∧
    (ctx.AddLocale locale entries).1.preferedLang = ctx.preferedLang := by
  simp only [InterContext.AddLocale, h]
  cases hl : lookupAssoc ctx.languages lang with
  | none =>
    refine ⟨rfl, ?_, ?_, ?_, ?_, rfl, rfl⟩
    · simp [lookupAssoc_insertAssoc_self, lookupAssoc]
    · intro _
      simp [lookupAssoc_insertAssoc_self]
    · intro lang2 hne
      simp [lookupAssoc_insertAssoc_ne _ _ _ _ hne]
    · intro g g2 reg2 _ hg _
      exact absurd hg (by simp [hl])
  | some g0 =>
    refine ⟨rfl, ?_, ?_, ?_, ?_, rfl, rfl⟩
    · simp [lookupAssoc_insertAssoc_self]
    · intro hcon
      simp at hcon
    · intro lang2 hne
      simp [lookupAssoc_insertAssoc_ne _ _ _ _ hne]
    · intro g g2 reg2 hne hg hg2
      injection hg with hg
      dsimp only at hg2
      rw [lookupAssoc_insertAssoc_self] at hg2
      injection hg2 with hg2
      rw [← hg2, ← hg]
      exact lookupAssoc_insertAssoc_ne _ _ _ _ hne

/-- Context with an existing `pt` group whose `BR` table has keys `a`
and `b`: used to witness the overwrite. -/
def ctxC7 : InterContext :=
  ⟨[("pt", [("BR", some [("a", "1"), ("b", "2")])])], none, none⟩

/-- Witness for claim C7: overwriting `pt_BR` with `{a ↦ 9}` succeeds
and the stored table becomes exactly `{a ↦ 9}` (key `b` is lost). -/
theorem claim_C7_witness :
    (ctxC7.AddLocale "pt_BR" (some [("a", "9")])).2 = none ∧
    lookupAssoc
      ((lookupAssoc (ctxC7.AddLocale "pt_BR" (some [("a", "9")])).1.languages "pt").getD [])
      "BR" = some (some [("a", "9")]) :=
  ⟨(claim_C7_AddLocale_overwrite ctxC7 "pt_BR" "pt" "BR" (some [("a", "9")]) (by decide)).1,
   (claim_C7_AddLocale_overwrite ctxC7 "pt_BR" "pt" "BR" (some [("a", "9")]) (by decide)).2.1⟩

/-- Counterexample to claim C8: the parse error for `"zz"` is the
scanner's `unexpected EOF`, which does not contain the offending input
`"zz"` — the echoing `unparsable locale string` branch never runs. -/
theorem claim_C8_counterexample :
    parseLocaleString "zz" = Except.error "unexpected EOF" ∧
    occursIn ("zz".data) ("unexpected EOF".data) = false := by decide

/-- Claim C8 (amended): every ParseError is one of the four fixed
scanner messages (`EOF`, `unexpected EOF`, `input does not match
format`, `unexpected newline`), all constants independent of the input;
the code's input-echoing error branch is unreachable because a scan
error always precedes a short count. -/
theorem claim_C8_error_is_scanner_message (s e : String)
    (h : parseLocaleString s = Except.error e) :
    e = "EOF" ∨ e = "unexpected EOF" ∨ e = "input does not match format" ∨
    e = "unexpected newline" := by
  rw [parseLocaleString_eq] at h
  rcases sscanfLocale_cases s.data with ⟨h1, h2⟩ | ⟨e2, h1, h2⟩
  · rw [h1, h2] at h
    simp at h
  · rw [h1] at h
    injection h with h
    exact h ▸ h2

/-- Witness for claim C8 (amended) at the concrete failing input `"zz"`. -/
theorem claim_C8_witness :
    "unexpected EOF" = "EOF" ∨
    "unexpected EOF" = "unexpected EOF" ∨
    "unexpected EOF" = "input does not match format" ∨
    "unexpected EOF" = "unexpected newline" :=
  claim_C8_error_is_scanner_message "zz" "unexpected EOF" (by decide)

/-- Bridge unfolding `AutoSetPreferedLocale` past its `let`. -/
theorem AutoSetPreferedLocale_eq (getenv : String → String) (ctx : InterContext) :
    InterContext.AutoSetPreferedLocale getenv ctx =
      match (InterContext.SetPreferedLocale ctx (getenv "LC_ALL")).2 with
      | none => ((InterContext.SetPreferedLocale ctx (getenv "LC_ALL")).1, none)
      | some _ => InterContext.SetPreferedLocale
          (InterContext.SetPreferedLocale ctx (getenv "LC_ALL")).1 (getenv "LANG") := rfl

/-- Claim C9: `AutoSetPreferedLocale` tries `LC_ALL` first; on success
it returns that call's result and never consults `LANG` (the result is
unchanged under any change of `LANG`); on parse failure — and the empty
value of an unset variable does fail parsing — it returns the result of
`SetPreferedLocale` on `LANG`, applied to the original context (the
failed first call changed nothing). -/
theorem claim_C9_AutoSetPreferedLocale (ctx : InterContext) (env env2 : String → String)
    (hsame : env2 "LC_ALL" = env "LC_ALL") :
    ((InterContext.SetPreferedLocale ctx (env "LC_ALL")).2 = none →
      InterContext.AutoSetPreferedLocale env ctx =
        InterContext.SetPreferedLocale ctx (env "LC_ALL") ∧
      InterContext.AutoSetPreferedLocale env2 ctx =
        InterContext.AutoSetPreferedLocale env ctx) ∧
    (∀ e, parseLocaleString (env "LC_ALL") = Except.error e →
      InterContext.AutoSetPreferedLocale env ctx =
        InterContext.SetPreferedLocale ctx (env "LANG")) ∧
    parseLocaleString "" = Except.error "EOF" := by
  refine ⟨fun hnone => ⟨?_, ?_⟩, fun e he => ?_, by decide⟩
  · rw [AutoSetPreferedLocale_eq, hnone]
    exact Prod.ext rfl hnone.symm
  · rw [AutoSetPreferedLocale_eq, AutoSetPreferedLocale_eq, hsame, hnone]
  · rw [AutoSetPreferedLocale_eq, SetPreferedLocale_of_err ctx _ e he]

/-- Witness for claim C9: a parseable `LC_ALL` wins outright. -/
theorem claim_C9_witness :
    InterContext.AutoSetPreferedLocale
      (fun v => if v = "LC_ALL" then "pt_BR" else "qq") ⟨[], none, none⟩ =
      InterContext.SetPreferedLocale ⟨[], none, none⟩ "pt_BR" :=
  ((claim_C9_AutoSetPreferedLocale ⟨[], none, none⟩
      (fun v => if v = "LC_ALL" then "pt_BR" else "qq")
      (fun v => if v = "LC_ALL" then "pt_BR" else "qq") rfl).1 (by decide)).1

/-- Claim C10: the read operations are pure — `Get` and `GetFromLocale`
leave all three fields of the context unchanged. -/
theorem claim_C10_reads_pure (ctx : InterContext) (key locale : String) :
    (ctx.Get key).2 = ctx ∧ (ctx.GetFromLocale key locale).2 = ctx := by
  constructor
  · unfold InterContext.Get
    split
    · rfl
    · dsimp only
      split
      · rfl
      · split <;> rfl
  · unfold InterContext.GetFromLocale
    split
    · rfl
    · split
      · rfl
      · split
        · split <;> rfl
        · dsimp only
          split <;> rfl
